import Mathlib

/-!
Verification of the KAS Temp Mail repository: an embedding of the relay
proxy (api server, final revision: raw-text read with best-effort JSON
parse and dual router mounting) and of the client session controller
(`src/App.tsx`), together with theorems settling the specification claims.

JavaScript runtime values flowing through the program are modelled by the
`Json` inductive below; numbers are modelled as integers (every numeric
value the program manipulates — statuses, lengths — is integral).
`JSON.parse` is a host primitive, so functions that call it take a
`parse : String → Option Json` argument (`none` models a thrown
`SyntaxError`).
-/

/-- A JavaScript/JSON value. `null` doubles as JSON null. -/
inductive Json where
  | null
  | bool (b : Bool)
  | num (n : Int)
  | str (s : String)
  | arr (elems : List Json)
  | obj (fields : List (String × Json))
deriving Repr

/-- JavaScript truthiness of a value. -/
def jsTruthy : Json → Bool
  | Json.null => false
  | Json.bool b => b
  | Json.num n => n != 0
  | Json.str s => s != ""
  | Json.arr _ => true
  | Json.obj _ => true

/-- Truthiness where `none` models JavaScript `undefined` (falsy). -/
def jsTruthyOpt : Option Json → Bool
  | none => false
  | some j => jsTruthy j

/-- First binding of a key in a field list (JS property lookup order). -/
def lookupField : List (String × Json) → String → Option Json
  | [], _ => none
  | (k, v) :: rest, key => if k = key then some v else lookupField rest key

/-- JavaScript property read `j[key]`, for a non-null base value: objects
yield their field (or `undefined` = `none`), arrays and strings expose
`length`, other primitives have no own properties of interest. Reading a
property of `null` throws in JS and is modelled separately (`jsAccess`). -/
def Json.jsGetField : Json → String → Option Json
  | Json.obj fs, key => lookupField fs key
  | Json.arr xs, key => if key = "length" then some (Json.num xs.length) else none
  | Json.str s, key => if key = "length" then some (Json.num s.length) else none
  | _, _ => none

/-- JavaScript property read that can throw: `null.key` raises a
`TypeError` (caught by the surrounding `try` in the source), every other
base value yields `jsGetField`. The JS message quotes the key; the quotes
are elided here. -/
def jsAccess (j : Json) (key : String) : Except String (Option Json) :=
  match j with
  | Json.null => Except.error ("Cannot read properties of null (reading " ++ key ++ ")")
  | _ => Except.ok (j.jsGetField key)

/-- JavaScript element read `j[i]` for a natural index: array element,
string character, or an object field keyed by the decimal index. -/
def Json.jsIndex : Json → Nat → Option Json
  | Json.arr xs, i => xs.get? i
  | Json.str s, i => (s.toList.get? i).map (fun c => Json.str (String.mk [c]))
  | Json.obj fs, i => lookupField fs (toString i)
  | _, _ => none

/-- Strict equality `o === s` between a possibly-undefined value and a
string: only a string with the same characters compares equal. -/
def jsStrictEqStr (o : Option Json) (s : String) : Bool :=
  match o with
  | some (Json.str t) => t = s
  | _ => false

/-- Strict equality `o === n` against a number literal. -/
def jsStrictEqNum (o : Option Json) (n : Int) : Bool :=
  match o with
  | some (Json.num m) => m = n
  | _ => false

mutual
/-- JavaScript `String(v)` / template-literal coercion of a value. -/
def jsToString : Json → String
  | Json.null => "null"
  | Json.bool true => "true"
  | Json.bool false => "false"
  | Json.num n => toString n
  | Json.str s => s
  | Json.arr xs => jsJoinElems xs
  | Json.obj _ => "[object Object]"

/-- `Array.prototype.toString`: elements joined by commas, with `null`
rendered as the empty string. -/
def jsJoinElems : List Json → String
  | [] => ""
  | [Json.null] => ""
  | [x] => jsToString x
  | Json.null :: rest => "," ++ jsJoinElems rest
  | x :: rest => jsToString x ++ "," ++ jsJoinElems rest
end

mutual
/-- `JSON.stringify` of a value (compact form; string escaping elided —
no string the program serializes contains characters needing escapes). -/
def Json.serialize : Json → String
  | Json.null => "null"
  | Json.bool true => "true"
  | Json.bool false => "false"
  | Json.num n => toString n
  | Json.str s => "\"" ++ s ++ "\""
  | Json.arr xs => "[" ++ serializeElems xs ++ "]"
  | Json.obj fs => "\x7b" ++ serializeFields fs ++ "\x7d"

def serializeElems : List Json → String
  | [] => ""
  | [x] => Json.serialize x
  | x :: rest => Json.serialize x ++ "," ++ serializeElems rest

def serializeFields : List (String × Json) → String
  | [] => ""
  | [(k, v)] => "\"" ++ k ++ "\":" ++ Json.serialize v
  | (k, v) :: rest => "\"" ++ k ++ "\":" ++ Json.serialize v ++ "," ++ serializeFields rest
end

/-! ## Relay proxy (api server, final revision)

The proxy helper `proxyRequest` does two things: it builds the upstream
request (method, headers, optionally a serialized body) and it adapts the
upstream response back to the caller.  The two phases are embedded as
`buildUpstreamRequest` and `proxyRespond`; `proxyRequest` composes the
adaptation with the transport outcome (`Except.error` models a rejected
`fetch`, handled by the `catch` block). -/

/-- The upstream HTTP request the proxy issues via `fetch`. -/
structure UpstreamRequest where
  method : String
  headers : List (String × String)
  body : Option String
deriving Repr, DecidableEq

/-- An upstream HTTP response as the proxy observes it: status, declared
content type (never consulted by this revision), raw body text. -/
structure UpstreamResponse where
  status : Nat
  contentType : Option String
  bodyText : String
deriving Repr, DecidableEq

/-- Body of the proxy's own response: `res.send()` with no payload,
`res.send(text)`, or `res.json(data)`. -/
inductive ResBody where
  | empty
  | text (s : String)
  | json (j : Json)
deriving Repr

/-- The bytes Express puts on the wire for each body form. -/
def ResBody.bytes : ResBody → String
  | ResBody.empty => ""
  | ResBody.text s => s
  | ResBody.json j => j.serialize

/-- The proxy's response to its caller. -/
structure ProxyResponse where
  status : Nat
  body : ResBody
deriving Repr

/-- Request construction in `proxyRequest`: `Content-Type: application/json`
always, `Authorization` copied when the incoming request carries one, and a
serialized body only for POST/PUT/PATCH with a truthy `req.body`. -/
def buildUpstreamRequest (method : String) (authorization : Option String)
    (reqBody : Option Json) : UpstreamRequest :=
  { method := method
    headers :=
      match authorization with
      | some a => [("Content-Type", "application/json"), ("Authorization", a)]
      | none => [("Content-Type", "application/json")]
    body :=
      if (["POST", "PUT", "PATCH"].contains method && jsTruthyOpt reqBody) then
        (reqBody.getD Json.null).serialize
      else
        none }

/-- Response adaptation in `proxyRequest`: status 204 short-circuits to an
empty 204 before any body read; otherwise the raw text is read, an empty
body is passed through as-is, and a JSON parse is attempted with the raw
text as fallback. -/
def proxyRespond (parse : String → Option Json) (resp : UpstreamResponse) : ProxyResponse :=
  if resp.status = 204 then
    { status := 204, body := ResBody.empty }
  else if resp.bodyText = "" then
    { status := resp.status, body := ResBody.empty }
  else
    match parse resp.bodyText with
    | some data => { status := resp.status, body := ResBody.json data }
    | none => { status := resp.status, body := ResBody.text resp.bodyText }

/-- Whole proxy handler: a transport failure (rejected `fetch`) reaches the
`catch` block and produces a 500 with a structured error payload; a
delivered upstream response is adapted by `proxyRespond`. -/
def proxyRequest (parse : String → Option Json)
    (fetchResult : Except String UpstreamResponse) : ProxyResponse :=
  match fetchResult with
  | Except.error msg =>
      { status := 500
        body := ResBody.json (Json.obj
          [("error", Json.str "Failed to fetch from mail service"), ("details", Json.str msg)]) }
  | Except.ok resp => proxyRespond parse resp

/-! ## Routing

The server registers seven routes on an `express.Router` and mounts the
router at both `/api` and `/`. A path is modelled as its list of segments;
Express strips the mount prefix before the router matches, and falls
through to the next mount when the router has no matching route. -/

/-- The seven logical routes of the relay. -/
inductive Route where
  | domains
  | accountsCreate
  | tokenCreate
  | messagesList
  | messageGet (id : String)
  | messageDelete (id : String)
  | health
deriving Repr, DecidableEq

/-- Route matching of the `express.Router`: method plus path segments. -/
def routerMatch (method : String) : List String → Option Route
  | ["mail", "domains"] => if method = "GET" then some Route.domains else none
  | ["mail", "accounts"] => if method = "POST" then some Route.accountsCreate else none
  | ["mail", "token"] => if method = "POST" then some Route.tokenCreate else none
  | ["mail", "messages"] => if method = "GET" then some Route.messagesList else none
  | ["mail", "messages", id] =>
      if method = "GET" then some (Route.messageGet id)
      else if method = "DELETE" then some (Route.messageDelete id)
      else none
  | ["health"] => if method = "GET" then some Route.health else none
  | _ => none

/-- Top-level dispatch: `app.use("/api", router)` strips the `api` prefix
and consults the router; on no match Express falls through to
`app.use("/", router)`, which sees the full path. -/
def appMatch (method : String) : List String → Option Route
  | "api" :: rest =>
      match routerMatch method rest with
      | some r => some r
      | none => routerMatch method ("api" :: rest)
  | path => routerMatch method path

/-! ## Client session controller (`src/App.tsx`)

The controller's reactive state is a record; each handler is embedded as a
big-step function from the pre-state (plus the outcome of the network
calls it performs, supplied as an argument) to the post-state.  A network
outcome is `Except String FetchResp`: `Except.error` models a rejected
`fetch` (the thrown error's message), `Except.ok` a delivered response. -/

/-- A delivered HTTP response as the client observes it (`res.ok`,
`res.status`, and the raw text that `res.text()` yields). -/
structure FetchResp where
  ok : Bool
  status : Nat
  bodyText : String
deriving Repr, DecidableEq

/-- `safeJson`: read the response text; an empty text or a failing
`JSON.parse` yields `\x7b\x7d` (and logs), otherwise the parsed value. -/
def safeJson (parse : String → Option Json) (bodyText : String) : Json :=
  if bodyText = "" then Json.obj []
  else
    match parse bodyText with
    | some j => j
    | none => Json.obj []

/-- `generateRandomString(length)` is
`Math.random().toString(36).substring(2, 2 + length)`.  The model takes
the characters of `Math.random().toString(36)` as input (for a random
`r ∈ [0,1)` this is `"0"` when `r = 0`, else `"0."` followed by the
base-36 fractional digits of `r`, trailing zeros trimmed) and applies the
`substring`: drop the first two characters, keep at most `length`. -/
def generateRandomString (rand : List Char) (len : Nat) : List Char :=
  (rand.drop 2).take len

/-- The characters `Math.random().toString(36)` can produce after `"0."`. -/
def isBase36Digit (c : Char) : Bool :=
  ( '0' ≤ c && c ≤ '9' ) || ( 'a' ≤ c && c ≤ 'z' )

/-- The active credential: `{ id: accountData.id, address, token }`.
`id` is whatever the accounts response carried (possibly `undefined`). -/
structure Account where
  id : Option Json
  address : String
  token : Json

/-- `JSON.stringify` view of a credential: an `undefined` id is omitted by
`JSON.stringify`, the remaining keys keep literal order. -/
def Account.toJson (a : Account) : Json :=
  Json.obj ((match a.id with
    | some i => [("id", i)]
    | none => []) ++ [("address", Json.str a.address), ("token", a.token)])

/-- The controller's state: the `useState` cells plus the
`localStorage` record under the key `kas_temp_mail_account` (`storage`,
held as the serialized string). -/
structure AppState where
  account : Option Account
  messages : List Json
  selectedMessage : Option Json
  loading : Bool
  fetchingMessages : Bool
  error : Option String
  storage : Option String

/-- The `catch` block of `createAccount`:
`setError(err.message || an-error-occurred)` then `setLoading(false)`.
An empty thrown message falls back to the generic text. -/
def createFail (st : AppState) (msg : String) : AppState :=
  { st with error := some (if msg = "" then "An error occurred" else msg), loading := false }

/-- `errorData.message || errorData.error || fallback`, coerced to the
thrown `Error`'s message string; a `null` payload makes the very first
property read throw a `TypeError` instead. -/
def jsErrChain (errorData : Json) (fallback : String) : String :=
  match errorData with
  | Json.null => "Cannot read properties of null (reading message)"
  | _ =>
    if jsTruthyOpt (errorData.jsGetField "message") then
      jsToString ((errorData.jsGetField "message").getD Json.null)
    else if jsTruthyOpt (errorData.jsGetField "error") then
      jsToString ((errorData.jsGetField "error").getD Json.null)
    else fallback

/-- Template-literal interpolation of a possibly-undefined value. -/
def jsTemplateStr : Option Json → String
  | none => "undefined"
  | some j => jsToString j

/-- The environment one run of `createAccount` interacts with: outcomes of
the three upstream calls (domains fetch, account creation, token request)
and the two `Math.random().toString(36)` strings drawn for username and
password.  (The POST bodies sent upstream are the serialized
`\x7baddress, password\x7d` records; the env fixes the responses.) -/
structure CreateEnv where
  domains : Except String FetchResp
  accounts : Except String FetchResp
  token : Except String FetchResp
  rand1 : List Char
  rand2 : List Char

/-- `createAccount`, step 3 (token request) and the final credential
installation.  `accountData.id` is only read at `newAccount` construction,
after the token check; a `null` accounts payload therefore throws there. -/
def createWithToken (parse : String → Option Json) (env : CreateEnv) (st0 : AppState)
    (address : String) (accountData : Json) : AppState :=
  match env.token with
  | Except.error e => createFail st0 e
  | Except.ok tokenRes =>
    if tokenRes.ok = false then
      createFail st0 (jsErrChain (safeJson parse tokenRes.bodyText) "Failed to get token")
    else
      match jsAccess (safeJson parse tokenRes.bodyText) "token" with
      | Except.error te => createFail st0 te
      | Except.ok tokenField =>
        if jsTruthyOpt tokenField = false then
          createFail st0 "Token not received from server"
        else
          match jsAccess accountData "id" with
          | Except.error te => createFail st0 te
          | Except.ok idField =>
            let newAccount : Account :=
              { id := idField, address := address, token := tokenField.getD Json.null }
            { st0 with account := some newAccount,
                       storage := some newAccount.toJson.serialize,
                       messages := [],
                       loading := false }

/-- `createAccount`, step 2: POST the new address to `/accounts`;
a non-ok response throws the upstream-provided message (or fallback). -/
def createWithAddress (parse : String → Option Json) (env : CreateEnv) (st0 : AppState)
    (address : String) : AppState :=
  match env.accounts with
  | Except.error e => createFail st0 e
  | Except.ok createRes =>
    if createRes.ok = false then
      createFail st0 (jsErrChain (safeJson parse createRes.bodyText) "Failed to create account")
    else
      createWithToken parse env st0 address (safeJson parse createRes.bodyText)

/-- `createAccount`, after the domains payload is in hand:
`if (!members || members.length === 0) throw`, then
`const domain = members[0].domain` (an `undefined` or `null` first member
makes the `.domain` read throw), then the random address is built. -/
def createWithMembers (parse : String → Option Json) (env : CreateEnv) (st0 : AppState)
    (members : Option Json) : AppState :=
  if jsTruthyOpt members = false
      || jsStrictEqNum ((members.getD Json.null).jsGetField "length") 0 then
    createFail st0 "No email domains available at the moment. Please try again later."
  else
    match (members.getD Json.null).jsIndex 0 with
    | none => createFail st0 "Cannot read properties of undefined (reading domain)"
    | some Json.null => createFail st0 "Cannot read properties of null (reading domain)"
    | some m0 =>
      createWithAddress parse env st0
        (String.mk (generateRandomString env.rand1 10) ++ "@"
          ++ jsTemplateStr (m0.jsGetField "domain"))

/-- `createAccount`: `setLoading(true); setError(null)`, then the
three-step acquisition inside one `try`; every failure lands in
`createFail`, success installs and persists the new credential and resets
the message list. -/
def createAccount (parse : String → Option Json) (env : CreateEnv) (st : AppState) : AppState :=
  match env.domains with
  | Except.error e => createFail { st with loading := true, error := none } e
  | Except.ok domainsRes =>
    if domainsRes.ok = false then
      createFail { st with loading := true, error := none }
        ("Domain fetch failed: " ++ toString domainsRes.status ++ " " ++ domainsRes.bodyText)
    else
      match jsAccess (safeJson parse domainsRes.bodyText) "error" with
      | Except.error te => createFail { st with loading := true, error := none } te
      | Except.ok errField =>
        if jsTruthyOpt errField then
          createFail { st with loading := true, error := none }
            (jsToString (errField.getD Json.null))
        else
          createWithMembers parse env { st with loading := true, error := none }
            ((safeJson parse domainsRes.bodyText).jsGetField "hydra:member")

/-- `data['hydra:member'] || []` as stored into the typed message list: a
falsy or absent member yields `[]`.  (The upstream schema's member is
always an array; a truthy non-array value — which JS would store as-is,
breaking every later list operation — is not representable in the typed
list and is also modelled as `[]`.) -/
def membersOrEmpty : Option Json → List Json
  | some (Json.arr xs) => xs
  | _ => []

/-- `fetchMessages`: bail out without an account; otherwise replace the
list wholesale with the payload's `hydra:member`.  Failures (rejected
fetch, non-ok status, or the `TypeError` from reading `hydra:member` off a
`null` payload) are logged only; the spinner flag ends false either way. -/
def fetchMessages (parse : String → Option Json) (env : Except String FetchResp)
    (st : AppState) : AppState :=
  match st.account with
  | none => st
  | some _ =>
    match env with
    | Except.error _ => { st with fetchingMessages := false }
    | Except.ok res =>
      if res.ok = false then { st with fetchingMessages := false }
      else
        match jsAccess (safeJson parse res.bodyText) "hydra:member" with
        | Except.error _ => { st with fetchingMessages := false }
        | Except.ok members =>
          { st with messages := membersOrEmpty members, fetchingMessages := false }

/-- Field update for the spread `\x7b ...m, seen: true \x7d`: an existing
key keeps its position, a new key is appended. -/
def setFieldList : List (String × Json) → String → Json → List (String × Json)
  | [], key, v => [(key, v)]
  | (k, w) :: rest, key, v =>
    if k = key then (key, v) :: rest else (k, w) :: setFieldList rest key v

/-- Object spread plus one new binding, `\x7b ...m, key: v \x7d`: arrays and
strings spread to their index keys, other primitives contribute nothing. -/
def Json.spreadSet (m : Json) (key : String) (v : Json) : Json :=
  match m with
  | Json.obj fs => Json.obj (setFieldList fs key v)
  | Json.arr xs => Json.obj ((xs.enum.map fun p => (toString p.1, p.2)) ++ [(key, v)])
  | Json.str s =>
      Json.obj ((s.toList.enum.map fun p => (toString p.1, Json.str (String.mk [p.2]))) ++ [(key, v)])
  | _ => Json.obj [(key, v)]

/-- `prev.map(m => m.id === id ? \x7b ...m, seen: true \x7d : m)`.
(A `null` list element would make the `m.id` read throw during React's
re-render; the upstream schema never produces one, and the model reads the
property as `undefined`.  Theorems about list operations assume
object-shaped messages.) -/
def markSeen (mid : String) (msgs : List Json) : List Json :=
  msgs.map fun m =>
    if jsStrictEqStr (m.jsGetField "id") mid then m.spreadSet "seen" (Json.bool true) else m

/-- `fetchMessageDetail`: bail out without an account; on success store the
payload as the selected message and mark the summary seen; on failure
`setError(err.message)` — note this catch, unlike the poll and delete
handlers, surfaces the error to the user. -/
def fetchMessageDetail (parse : String → Option Json) (mid : String)
    (env : Except String FetchResp) (st : AppState) : AppState :=
  match st.account with
  | none => st
  | some _ =>
    match env with
    | Except.error e => { st with error := some e, loading := false }
    | Except.ok res =>
      if res.ok = false then
        { st with error := some "Failed to fetch message detail", loading := false }
      else
        { st with selectedMessage := some (safeJson parse res.bodyText),
                  messages := markSeen mid st.messages,
                  loading := false }

/-- `deleteMessage`: bail out without an account; a rejected fetch is
logged only.  A delivered response — the status is never consulted —
removes the id from the list and clears the detail pane when the open
message carries that id. -/
def deleteMessage (did : String) (env : Except String FetchResp) (st : AppState) : AppState :=
  match st.account with
  | none => st
  | some _ =>
    match env with
    | Except.error _ => st
    | Except.ok _ =>
      { st with
        messages := st.messages.filter fun m => !(jsStrictEqStr (m.jsGetField "id") did),
        selectedMessage :=
          match st.selectedMessage with
          | some sm => if jsStrictEqStr (sm.jsGetField "id") did then none else some sm
          | none => none }

/-! ## Theorems: relay proxy -/

/-- C4: for every upstream response with status 204, the proxy responds
204 with an empty body and performs no body parsing (the `parse` argument
and the declared content type are universally quantified and unused). -/
theorem proxy_status_204 (parse : String → Option Json) (ct : Option String) (body : String) :
    proxyRequest parse (Except.ok { status := 204, contentType := ct, bodyText := body })
      = { status := 204, body := ResBody.empty } := rfl

/-- C3: for every upstream response whose status is not 204 and whose body
fails to parse as JSON, the proxy answers with the same status, the raw
body bytes unchanged, and never a parsed-JSON body (no parse error
escapes). -/
theorem proxy_invalid_json_passthrough (parse : String → Option Json) (u : UpstreamResponse)
    (h204 : u.status ≠ 204) (hparse : parse u.bodyText = none) :
    (proxyRequest parse (Except.ok u)).status = u.status
    ∧ (proxyRequest parse (Except.ok u)).body.bytes = u.bodyText
    ∧ ∀ j, (proxyRequest parse (Except.ok u)).body ≠ ResBody.json j := by
  unfold proxyRequest proxyRespond
  by_cases hb : u.bodyText = "" <;>
    simp [h204, hb, hparse, ResBody.bytes]

/-- Witness for C3 at a concrete non-JSON upstream response. -/
theorem proxy_invalid_json_passthrough_witness :
    (proxyRequest (fun _ => none)
        (Except.ok { status := 404, contentType := some "text/html", bodyText := "oops" })).status = 404
    ∧ (proxyRequest (fun _ => none)
        (Except.ok { status := 404, contentType := some "text/html", bodyText := "oops" })).body.bytes = "oops"
    ∧ ∀ j, (proxyRequest (fun _ => none)
        (Except.ok { status := 404, contentType := some "text/html", bodyText := "oops" })).body ≠ ResBody.json j :=
  proxy_invalid_json_passthrough (fun _ => none)
    { status := 404, contentType := some "text/html", bodyText := "oops" } (by decide) rfl

/-- C5: a POST/PUT/PATCH call with a truthy JSON body forwards exactly the
serialized body; a GET or DELETE call forwards no body even when one is
supplied. -/
theorem forwarded_body (auth : Option String) (j : Json) (m g : String) (b : Option Json)
    (hm : m = "POST" ∨ m = "PUT" ∨ m = "PATCH") (hj : jsTruthy j = true)
    (hg : g = "GET" ∨ g = "DELETE") :
    (buildUpstreamRequest m auth (some j)).body = some (Json.serialize j)
    ∧ (buildUpstreamRequest g auth b).body = none := by
  constructor
  · rcases hm with h | h | h <;> subst h <;>
      simp [buildUpstreamRequest, jsTruthyOpt, hj]
  · rcases hg with h | h <;> subst h <;>
      simp [buildUpstreamRequest]

/-- Witness for C5: a POST with a JSON body forwards it serialized, a GET
with the same body supplied forwards none. -/
theorem forwarded_body_witness :
    (buildUpstreamRequest "POST" (some "Bearer t")
        (some (Json.obj [("address", Json.str "x@test.dev")]))).body
      = some (Json.serialize (Json.obj [("address", Json.str "x@test.dev")]))
    ∧ (buildUpstreamRequest "GET" (some "Bearer t")
        (some (Json.obj [("address", Json.str "x@test.dev")]))).body = none :=
  forwarded_body (some "Bearer t") (Json.obj [("address", Json.str "x@test.dev")])
    "POST" "GET" (some (Json.obj [("address", Json.str "x@test.dev")]))
    (Or.inl rfl) rfl (Or.inl rfl)

/-! ## Theorems: routing -/

/-- No registered route begins with an `api` segment, so the router never
matches a path that still carries the mount prefix. -/
theorem routerMatch_api_none (method : String) (rest : List String) :
    routerMatch method ("api" :: rest) = none := by
  rcases rest with _ | ⟨b, _ | ⟨c, _ | ⟨d, t⟩⟩⟩ <;> rfl

/-- Dispatch on a path that does not start with the `api` segment goes
straight to the root-mounted router. -/
theorem appMatch_not_api (method hd : String) (rest : List String) (hhd : hd ≠ "api") :
    appMatch method (hd :: rest) = routerMatch method (hd :: rest) := by
  unfold appMatch
  split
  · next heq => exact absurd (by injection heq) hhd
  · rfl

/-- C9: every route of the relay is reachable under the `/api` prefix and
at the unprefixed root, with identical dispatch (the same `Route` value,
hence the same handler and upstream call). -/
theorem dual_mount (method : String) (p : List String) (r : Route)
    (h : routerMatch method p = some r) :
    appMatch method ("api" :: p) = some r ∧ appMatch method p = some r := by
  constructor
  · show (match routerMatch method p with
      | some r => some r
      | none => routerMatch method ("api" :: p)) = some r
    rw [h]
  · rcases p with _ | ⟨hd, rest⟩
    · exact h
    · by_cases hhd : hd = "api"
      · subst hhd
        rw [routerMatch_api_none] at h
        cases h
      · rw [appMatch_not_api method hd rest hhd]
        exact h

/-- Witness for C9 at the domains route. -/
theorem dual_mount_witness :
    appMatch "GET" ["api", "mail", "domains"] = some Route.domains
    ∧ appMatch "GET" ["mail", "domains"] = some Route.domains :=
  dual_mount "GET" ["mail", "domains"] Route.domains rfl

/-! ## Theorems: credential acquisition (C1, C6) -/

/-- Outcome shape of one stage of `createAccount` relative to the state
`st0` holding at entry of the `try` block: either the complete new
credential is installed (in memory and storage) with the message list
reset, or the credential cells are untouched and an error message is set. -/
def StageOutcome (st0 st2 : AppState) : Prop :=
  (∃ a : Account, st2.account = some a ∧ st2.storage = some a.toJson.serialize
      ∧ st2.messages = [] ∧ st2.error = st0.error)
  ∨ (st2.account = st0.account ∧ st2.storage = st0.storage
      ∧ st2.messages = st0.messages ∧ ∃ m, st2.error = some m)

theorem createWithToken_outcome (parse : String → Option Json) (env : CreateEnv)
    (st0 : AppState) (address : String) (accountData : Json) :
    StageOutcome st0 (createWithToken parse env st0 address accountData) := by
  unfold createWithToken
  repeat' split
  all_goals first
    | exact Or.inr ⟨rfl, rfl, rfl, _, rfl⟩
    | exact Or.inl ⟨_, rfl, rfl, rfl, rfl⟩

theorem createWithAddress_outcome (parse : String → Option Json) (env : CreateEnv)
    (st0 : AppState) (address : String) :
    StageOutcome st0 (createWithAddress parse env st0 address) := by
  unfold createWithAddress
  repeat' split
  all_goals first
    | exact Or.inr ⟨rfl, rfl, rfl, _, rfl⟩
    | exact createWithToken_outcome parse env st0 _ _

theorem createWithMembers_outcome (parse : String → Option Json) (env : CreateEnv)
    (st0 : AppState) (members : Option Json) :
    StageOutcome st0 (createWithMembers parse env st0 members) := by
  unfold createWithMembers
  repeat' split
  all_goals first
    | exact Or.inr ⟨rfl, rfl, rfl, _, rfl⟩
    | exact createWithAddress_outcome parse env st0 _

/-- Transfer a stage outcome (relative to the post-`setError(null)` state)
to the pre-call state: the credential cells of the two coincide. -/
theorem stage_to_atomic (st st2 : AppState)
    (h : StageOutcome { st with loading := true, error := none } st2) :
    (∃ a : Account, st2.account = some a ∧ st2.storage = some a.toJson.serialize
        ∧ st2.messages = [] ∧ st2.error = none)
    ∨ (st2.account = st.account ∧ st2.storage = st.storage
        ∧ st2.messages = st.messages ∧ ∃ m, st2.error = some m) := h

/-- C1: credential acquisition is atomic.  Every run of `createAccount` —
over all transport outcomes, upstream responses, random strings and parse
behaviours — either installs a complete new credential (in-memory and in
local storage, with the message list reset and no error), or leaves the
in-memory credential, the persisted credential and the message list
exactly as they were and surfaces a single error message.  In particular a
token request that returns no token can only take the second branch. -/
theorem createAccount_atomic (parse : String → Option Json) (env : CreateEnv) (st : AppState) :
    (∃ a : Account, (createAccount parse env st).account = some a
        ∧ (createAccount parse env st).storage = some a.toJson.serialize
        ∧ (createAccount parse env st).messages = []
        ∧ (createAccount parse env st).error = none)
    ∨ ((createAccount parse env st).account = st.account
        ∧ (createAccount parse env st).storage = st.storage
        ∧ (createAccount parse env st).messages = st.messages
        ∧ ∃ m, (createAccount parse env st).error = some m) := by
  unfold createAccount
  repeat' split
  all_goals first
    | exact Or.inr ⟨rfl, rfl, rfl, _, rfl⟩
    | exact stage_to_atomic st _ (createWithMembers_outcome parse env _ _)

/-- C6 counterexample: `Math.random()` can return `0.25`, whose base-36
rendering is `"0.9"` (`9/36 = 0.25`); `substring(2, 12)` of it is the
single character `"9"`, so the generated username is not 10 characters
long (and the address `9@test.dev` does not match
`^[a-z0-9]\x7b10\x7d@test\.dev$`). -/
theorem generateRandomString_not_fixed_length :
    ¬ (generateRandomString ['0', '.', '9'] 10).length = 10 := by decide

/-- C6 amended: the generated username (resp. password) is an alphanumeric
string of length at most 10 (resp. 12), with equality exactly when the
random draw carries at least that many base-36 fractional digits; with
domain `test.dev` the address therefore matches
`^[a-z0-9]\x7b0,10\x7d@test\.dev$`. -/
theorem generateRandomString_amended (ds es : List Char)
    (hds : ∀ c ∈ ds, isBase36Digit c = true) (hes : ∀ c ∈ es, isBase36Digit c = true) :
    ((generateRandomString ('0' :: '.' :: ds) 10).length ≤ 10
      ∧ (∀ c ∈ generateRandomString ('0' :: '.' :: ds) 10, isBase36Digit c = true)
      ∧ (10 ≤ ds.length → (generateRandomString ('0' :: '.' :: ds) 10).length = 10))
    ∧ ((generateRandomString ('0' :: '.' :: es) 12).length ≤ 12
      ∧ (∀ c ∈ generateRandomString ('0' :: '.' :: es) 12, isBase36Digit c = true)
      ∧ (12 ≤ es.length → (generateRandomString ('0' :: '.' :: es) 12).length = 12)) := by
  have key : ∀ (l : List Char) (n : Nat), (∀ c ∈ l, isBase36Digit c = true) →
      (generateRandomString ('0' :: '.' :: l) n).length ≤ n
      ∧ (∀ c ∈ generateRandomString ('0' :: '.' :: l) n, isBase36Digit c = true)
      ∧ (n ≤ l.length → (generateRandomString ('0' :: '.' :: l) n).length = n) := by
    intro l n hl
    have hgen : generateRandomString ('0' :: '.' :: l) n = l.take n := rfl
    refine ⟨?_, ?_, ?_⟩
    · rw [hgen, List.length_take]
      exact Nat.min_le_left n l.length
    · intro c hc
      rw [hgen] at hc
      exact hl c (List.take_subset n l hc)
    · intro hn
      rw [hgen, List.length_take]
      exact Nat.min_eq_left hn
  exact ⟨key ds 10 hds, key es 12 hes⟩

/-- Witness for the amended C6 at concrete 10- and 12-digit draws. -/
theorem generateRandomString_amended_witness :
    ((generateRandomString ('0' :: '.' :: ['a', '1', 'b', '2', 'c', '3', 'd', '4', 'e', '5']) 10).length ≤ 10
      ∧ (∀ c ∈ generateRandomString ('0' :: '.' :: ['a', '1', 'b', '2', 'c', '3', 'd', '4', 'e', '5']) 10,
            isBase36Digit c = true)
      ∧ (10 ≤ (['a', '1', 'b', '2', 'c', '3', 'd', '4', 'e', '5'] : List Char).length →
          (generateRandomString ('0' :: '.' :: ['a', '1', 'b', '2', 'c', '3', 'd', '4', 'e', '5']) 10).length = 10))
    ∧ ((generateRandomString ('0' :: '.' :: ['f', '6', 'g', '7', 'h', '8', 'i', '9', 'j', '0', 'k', '1']) 12).length ≤ 12
      ∧ (∀ c ∈ generateRandomString ('0' :: '.' :: ['f', '6', 'g', '7', 'h', '8', 'i', '9', 'j', '0', 'k', '1']) 12,
            isBase36Digit c = true)
      ∧ (12 ≤ (['f', '6', 'g', '7', 'h', '8', 'i', '9', 'j', '0', 'k', '1'] : List Char).length →
          (generateRandomString ('0' :: '.' :: ['f', '6', 'g', '7', 'h', '8', 'i', '9', 'j', '0', 'k', '1']) 12).length = 12)) :=
  generateRandomString_amended
    ['a', '1', 'b', '2', 'c', '3', 'd', '4', 'e', '5']
    ['f', '6', 'g', '7', 'h', '8', 'i', '9', 'j', '0', 'k', '1']
    (by decide) (by decide)

/-! ## Theorems: the seen flag (C2) -/

theorem lookupField_setFieldList_self (fs : List (String × Json)) (key : String) (v : Json) :
    lookupField (setFieldList fs key v) key = some v := by
  induction fs with
  | nil => simp [setFieldList, lookupField]
  | cons kv rest ih =>
    obtain ⟨k, w⟩ := kv
    by_cases hk : k = key <;> simp [setFieldList, lookupField, hk, ih]

theorem lookupField_setFieldList_other (fs : List (String × Json)) (key key2 : String)
    (v : Json) (hne : key2 ≠ key) :
    lookupField (setFieldList fs key v) key2 = lookupField fs key2 := by
  induction fs with
  | nil => simp [setFieldList, lookupField, Ne.symm hne]
  | cons kv rest ih =>
    obtain ⟨k, w⟩ := kv
    by_cases hk : k = key
    · subst hk
      simp [setFieldList, lookupField, Ne.symm hne]
    · simp [setFieldList, lookupField, hk, ih]

/-- C2 counterexample: the controller holds one message with id `a`
already marked seen; a poll delivers the payload
`\x7b"hydra:member":[\x7b"id":"a","seen":false\x7d]\x7d`, and the message —
still present in the list under the same id — comes back with its seen
flag reset to `false`.  The poll operation of the session controller thus
does reset a seen flag, refuting the claim. -/
theorem seen_flag_reset_by_poll :
    (fetchMessages
        (fun _ => some (Json.obj [("hydra:member",
            Json.arr [Json.obj [("id", Json.str "a"), ("seen", Json.bool false)]])]))
        (Except.ok { ok := true, status := 200, bodyText := "payload" })
        { account := some { id := none, address := "u@test.dev", token := Json.str "t" },
          messages := [Json.obj [("id", Json.str "a"), ("seen", Json.bool true)]],
          selectedMessage := none, loading := false, fetchingMessages := false,
          error := none, storage := none }).messages
      = [Json.obj [("id", Json.str "a"), ("seen", Json.bool false)]] := rfl


/-- A concrete controller state with an active credential and one message
(id `a`) already marked seen, used to instantiate the seen-flag claims. -/
def stSeen : AppState :=
  { account := some { id := none, address := "u@test.dev", token := Json.str "t" },
    messages := [Json.obj [("id", Json.str "a"), ("seen", Json.bool true)]],
    selectedMessage := none, loading := false, fetchingMessages := false,
    error := none, storage := none }

/-- C2 amended: the seen flag is monotone under the controller's own list
operations — a detail fetch only ever raises it (for the fetched id) and a
delete only ever removes messages — but a message-list poll replaces the
list wholesale with the upstream payload, so a locally-set flag survives a
poll only if the payload carries it.  Stated for object-shaped messages
(the upstream schema; a non-object element would crash the re-render). -/
theorem seen_monotone_amended (parse : String → Option Json) (mid did : String)
    (envD envX : Except String FetchResp) (st : AppState)
    (hobj : ∀ m ∈ st.messages, ∃ fs, m = Json.obj fs) :
    (∀ m2 ∈ (fetchMessageDetail parse mid envD st).messages,
      ∃ m ∈ st.messages,
        m2.jsGetField "id" = m.jsGetField "id"
        ∧ (m.jsGetField "seen" = some (Json.bool true) →
            m2.jsGetField "seen" = some (Json.bool true)))
    ∧ (∀ m2 ∈ (deleteMessage did envX st).messages, m2 ∈ st.messages) := by
  constructor
  · intro m2 hm2
    have hmark : ∀ m3 ∈ markSeen mid st.messages,
        ∃ m ∈ st.messages,
          m3.jsGetField "id" = m.jsGetField "id"
          ∧ (m.jsGetField "seen" = some (Json.bool true) →
              m3.jsGetField "seen" = some (Json.bool true)) := by
      intro m3 hm3
      unfold markSeen at hm3
      rcases List.mem_map.1 hm3 with ⟨m, hm, hval⟩
      by_cases heq : jsStrictEqStr (m.jsGetField "id") mid = true
      · rw [if_pos heq] at hval
        rcases hobj m hm with ⟨fs, hfs⟩
        subst hfs
        refine ⟨Json.obj fs, hm, ?_, ?_⟩
        · rw [← hval]
          show lookupField (setFieldList fs "seen" (Json.bool true)) "id" = lookupField fs "id"
          exact lookupField_setFieldList_other fs "seen" "id" (Json.bool true) (by decide)
        · intro _
          rw [← hval]
          show lookupField (setFieldList fs "seen" (Json.bool true)) "seen" = some (Json.bool true)
          exact lookupField_setFieldList_self fs "seen" (Json.bool true)
      · rw [if_neg heq] at hval
        exact ⟨m, hm, by rw [← hval], fun h => by rw [← hval]; exact h⟩
    unfold fetchMessageDetail at hm2
    rcases hacc : st.account with _ | a
    · rw [hacc] at hm2
      exact ⟨m2, hm2, rfl, fun h => h⟩
    · rw [hacc] at hm2
      rcases envD with e | res
      · exact ⟨m2, hm2, rfl, fun h => h⟩
      · obtain ⟨rok, rstat, rbody⟩ := res
        cases rok
        · exact ⟨m2, hm2, rfl, fun h => h⟩
        · exact hmark m2 hm2
  · intro m2 hm2
    unfold deleteMessage at hm2
    rcases hacc : st.account with _ | a
    · rw [hacc] at hm2
      exact hm2
    · rw [hacc] at hm2
      rcases envX with e | res
      · exact hm2
      · exact List.mem_of_mem_filter hm2

/-- Witness for the amended C2: one seen message, a failing detail fetch
and a delivered delete on a different id. -/
theorem seen_monotone_amended_witness :
    (∀ m2 ∈ (fetchMessageDetail (fun _ => none) "a" (Except.error "boom") stSeen).messages,
      ∃ m ∈ stSeen.messages,
        m2.jsGetField "id" = m.jsGetField "id"
        ∧ (m.jsGetField "seen" = some (Json.bool true) →
            m2.jsGetField "seen" = some (Json.bool true)))
    ∧ (∀ m2 ∈ (deleteMessage "b"
          (Except.ok { ok := true, status := 200, bodyText := "" }) stSeen).messages,
      m2 ∈ stSeen.messages) :=
  seen_monotone_amended (fun _ => none) "a" "b" (Except.error "boom")
    (Except.ok { ok := true, status := 200, bodyText := "" }) stSeen
    (by
      intro m hm
      rw [show stSeen.messages = [Json.obj [("id", Json.str "a"), ("seen", Json.bool true)]] from rfl,
        List.mem_singleton] at hm
      exact ⟨_, hm⟩)

/-! ## Theorems: background failures (C7) -/

/-- A concrete controller state with an active credential, used to
instantiate the background-failure claims. -/
def stBg : AppState :=
  { account := some { id := none, address := "u@test.dev", token := Json.str "t" },
    messages := [], selectedMessage := none, loading := false,
    fetchingMessages := false, error := none, storage := none }

/-- C7 counterexample: a failing message-detail fetch does surface a
user-visible error — the `catch` of `fetchMessageDetail` calls
`setError(err.message)`, so the error toast shows the failure instead of
it being logged only. -/
theorem detail_failure_surfaces_error :
    (fetchMessageDetail (fun _ => none) "m1" (Except.error "network down") stBg).error
      = some "network down" := rfl

/-- C7 amended: a message-list poll failure and a delete failure are
logged only — they change neither the user-visible error nor the
credential (so the polling loop, keyed on the credential, continues) —
but a message-detail fetch failure sets the user-visible error message
(while also leaving the credential and the polling loop intact). -/
theorem background_failures_amended (parse : String → Option Json)
    (env envd : Except String FetchResp) (did e : String) (mid : String)
    (st : AppState) (a : Account) (hacc : st.account = some a) :
    ((fetchMessages parse env st).error = st.error
      ∧ (fetchMessages parse env st).account = st.account)
    ∧ ((deleteMessage did envd st).error = st.error
      ∧ (deleteMessage did envd st).account = st.account)
    ∧ ((fetchMessageDetail parse mid (Except.error e) st).error = some e
      ∧ (fetchMessageDetail parse mid (Except.error e) st).account = st.account) := by
  refine ⟨?_, ?_, ?_⟩
  · unfold fetchMessages
    rw [hacc]
    repeat' split
    all_goals first
      | exact ⟨rfl, rfl⟩
      | exact ⟨rfl, hacc⟩
  · unfold deleteMessage
    rw [hacc]
    rcases envd with e2 | r
    · exact ⟨rfl, hacc⟩
    · exact ⟨rfl, rfl⟩
  · unfold fetchMessageDetail
    rw [hacc]
    exact ⟨rfl, rfl⟩

/-- Witness for the amended C7: failing poll, failing delete and failing
detail fetch against the concrete active-credential state. -/
theorem background_failures_amended_witness :
    ((fetchMessages (fun _ => none) (Except.error "poll failed") stBg).error = stBg.error
      ∧ (fetchMessages (fun _ => none) (Except.error "poll failed") stBg).account = stBg.account)
    ∧ ((deleteMessage "x" (Except.error "delete failed") stBg).error = stBg.error
      ∧ (deleteMessage "x" (Except.error "delete failed") stBg).account = stBg.account)
    ∧ ((fetchMessageDetail (fun _ => none) "m" (Except.error "detail failed") stBg).error
          = some "detail failed"
      ∧ (fetchMessageDetail (fun _ => none) "m" (Except.error "detail failed") stBg).account
          = stBg.account) :=
  background_failures_amended (fun _ => none) (Except.error "poll failed")
    (Except.error "delete failed") "x" "detail failed" "m" stBg
    { id := none, address := "u@test.dev", token := Json.str "t" } rfl

/-! ## Theorems: deletion (C8) -/

/-- C8: a delete whose upstream call is delivered (the handler never
consults the status, so in particular every upstream-successful delete)
removes the id from the in-memory list, clears the detail pane exactly
when the open message carried the deleted id, and leaves the detail pane
unchanged otherwise.  Stated for object-shaped messages (the upstream
schema; a non-object element would crash the re-render). -/
theorem deleteMessage_removes (did : String) (r : FetchResp) (st : AppState) (a : Account)
    (hacc : st.account = some a)
    (hobj : ∀ m ∈ st.messages, ∃ fs, m = Json.obj fs) :
    (deleteMessage did (Except.ok r) st).messages
        = st.messages.filter (fun m => !(jsStrictEqStr (m.jsGetField "id") did))
    ∧ (∀ m ∈ (deleteMessage did (Except.ok r) st).messages,
        jsStrictEqStr (m.jsGetField "id") did = false)
    ∧ ((∃ sm, st.selectedMessage = some sm ∧ jsStrictEqStr (sm.jsGetField "id") did = true) →
        (deleteMessage did (Except.ok r) st).selectedMessage = none)
    ∧ ((∀ sm, st.selectedMessage = some sm → jsStrictEqStr (sm.jsGetField "id") did = false) →
        (deleteMessage did (Except.ok r) st).selectedMessage = st.selectedMessage) := by
  have hmsg : (deleteMessage did (Except.ok r) st).messages
      = st.messages.filter (fun m => !(jsStrictEqStr (m.jsGetField "id") did)) := by
    unfold deleteMessage
    rw [hacc]
  have hsel : (deleteMessage did (Except.ok r) st).selectedMessage
      = (match st.selectedMessage with
         | some sm => if jsStrictEqStr (sm.jsGetField "id") did = true then none else some sm
         | none => none) := by
    unfold deleteMessage
    rw [hacc]
  refine ⟨hmsg, ?_, ?_, ?_⟩
  · intro m hm
    rw [hmsg] at hm
    have h2 := List.of_mem_filter hm
    simpa using h2
  · rintro ⟨sm, hsm, hid⟩
    rw [hsel, hsm]
    exact if_pos hid
  · intro hall
    rw [hsel]
    rcases hs : st.selectedMessage with _ | sm
    · rfl
    · have hf := hall sm hs
      simp [hf]

/-- A concrete controller state whose selected message is the message
with id `x`, used to instantiate the deletion claim. -/
def stDel : AppState :=
  { account := some { id := none, address := "u@test.dev", token := Json.str "t" },
    messages := [Json.obj [("id", Json.str "x")], Json.obj [("id", Json.str "y")]],
    selectedMessage := some (Json.obj [("id", Json.str "x")]),
    loading := false, fetchingMessages := false, error := none, storage := none }

/-- Witness for C8: deleting id `x` from the concrete state (where `x` is
the selected message and `y` is not). -/
theorem deleteMessage_removes_witness :
    (deleteMessage "x" (Except.ok { ok := true, status := 204, bodyText := "" }) stDel).messages
        = stDel.messages.filter (fun m => !(jsStrictEqStr (m.jsGetField "id") "x"))
    ∧ (∀ m ∈ (deleteMessage "x" (Except.ok { ok := true, status := 204, bodyText := "" }) stDel).messages,
        jsStrictEqStr (m.jsGetField "id") "x" = false)
    ∧ ((∃ sm, stDel.selectedMessage = some sm ∧ jsStrictEqStr (sm.jsGetField "id") "x" = true) →
        (deleteMessage "x" (Except.ok { ok := true, status := 204, bodyText := "" }) stDel).selectedMessage = none)
    ∧ ((∀ sm, stDel.selectedMessage = some sm → jsStrictEqStr (sm.jsGetField "id") "x" = false) →
        (deleteMessage "x" (Except.ok { ok := true, status := 204, bodyText := "" }) stDel).selectedMessage
          = stDel.selectedMessage) :=
  deleteMessage_removes "x" { ok := true, status := 204, bodyText := "" } stDel
    { id := none, address := "u@test.dev", token := Json.str "t" } rfl
    (by
      intro m hm
      rw [show stDel.messages
          = [Json.obj [("id", Json.str "x")], Json.obj [("id", Json.str "y")]] from rfl] at hm
      simp only [List.mem_cons, List.not_mem_nil, or_false] at hm
      rcases hm with h | h
      · exact ⟨_, h⟩
      · exact ⟨_, h⟩)

/-! ## Theorems: list replacement on poll (C10) -/

/-- Property access on any non-null value does not throw. -/
theorem jsAccess_ne_null (j : Json) (key : String) (h : j ≠ Json.null) :
    jsAccess j key = Except.ok (j.jsGetField key) := by
  cases j
  · exact absurd rfl h
  all_goals rfl

/-- A concrete controller state with an active credential and one message,
used to instantiate the poll-replacement claims. -/
def stPoll : AppState :=
  { account := some { id := none, address := "u@test.dev", token := Json.str "t" },
    messages := [Json.obj [("id", Json.str "a")]],
    selectedMessage := none, loading := false, fetchingMessages := false,
    error := none, storage := none }

/-- C10 counterexample: an ok poll response with body `"null"` parses to
JSON `null` — a payload that certainly lacks `hydra:member` — but the
list is NOT set to empty: reading `hydra:member` off `null` throws a
`TypeError` that the `catch` merely logs, so the in-memory list survives
unchanged. -/
theorem poll_null_payload_keeps_list :
    (fetchMessages (fun s => if s = "null" then some Json.null else none)
        (Except.ok { ok := true, status := 200, bodyText := "null" }) stPoll).messages
      = [Json.obj [("id", Json.str "a")]] := rfl

/-- C10 amended: for an ok poll response, a non-null payload replaces the
in-memory list wholesale by its `hydra:member` array (discarding all
client-local state, seen overlays included); an empty or unparsable body
(which `safeJson` turns into the empty object) and a non-null payload
lacking `hydra:member` yield the empty list; the one exception is a
payload equal to JSON `null`, whose member read throws a logged
`TypeError` and leaves the list unchanged. -/
theorem fetchMessages_replaces_amended (parse : String → Option Json)
    (r : FetchResp) (st : AppState) (a : Account)
    (hacc : st.account = some a) (hok : r.ok = true) :
    (safeJson parse r.bodyText ≠ Json.null →
      (fetchMessages parse (Except.ok r) st).messages
        = membersOrEmpty ((safeJson parse r.bodyText).jsGetField "hydra:member"))
    ∧ ((r.bodyText = "" ∨ parse r.bodyText = none) →
        (fetchMessages parse (Except.ok r) st).messages = [])
    ∧ (∀ j, parse r.bodyText = some j → j ≠ Json.null →
        j.jsGetField "hydra:member" = none →
        (fetchMessages parse (Except.ok r) st).messages = [])
    ∧ (safeJson parse r.bodyText = Json.null →
        (fetchMessages parse (Except.ok r) st).messages = st.messages) := by
  have hred : fetchMessages parse (Except.ok r) st
      = (match jsAccess (safeJson parse r.bodyText) "hydra:member" with
         | Except.error _ => { st with fetchingMessages := false }
         | Except.ok members =>
             { st with messages := membersOrEmpty members, fetchingMessages := false }) := by
    unfold fetchMessages
    rw [hacc]
    obtain ⟨rok, rstat, rbody⟩ := r
    cases rok
    · cases hok
    · rfl
  have hmain : safeJson parse r.bodyText ≠ Json.null →
      (fetchMessages parse (Except.ok r) st).messages
        = membersOrEmpty ((safeJson parse r.bodyText).jsGetField "hydra:member") := by
    intro hnn
    rw [hred, jsAccess_ne_null _ _ hnn]
  refine ⟨hmain, ?_, ?_, ?_⟩
  · intro hbad
    have hsj : safeJson parse r.bodyText = Json.obj [] := by
      rcases hbad with hb | hp
      · simp [safeJson, hb]
      · by_cases hb : r.bodyText = ""
        · simp [safeJson, hb]
        · simp [safeJson, hb, hp]
    rw [hmain (by rw [hsj]; exact fun h => Json.noConfusion h), hsj]
    rfl
  · intro j hj hnn hmem
    by_cases hb : r.bodyText = ""
    · have hsj : safeJson parse r.bodyText = Json.obj [] := by simp [safeJson, hb]
      rw [hmain (by rw [hsj]; exact fun h => Json.noConfusion h), hsj]
      rfl
    · have hsj : safeJson parse r.bodyText = j := by simp [safeJson, hb, hj]
      rw [hmain (by rw [hsj]; exact hnn), hsj, hmem]
      rfl
  · intro hnull
    rw [hred, hnull]
    rfl

/-- Witness for the amended C10: an ok response whose payload carries a
`hydra:member` array with one fresh message replaces the concrete state's
list with exactly that array. -/
theorem fetchMessages_replaces_amended_witness :
    (safeJson (fun _ => some (Json.obj [("hydra:member", Json.arr [Json.obj [("id", Json.str "b")]])])) "payload" ≠ Json.null →
      (fetchMessages (fun _ => some (Json.obj [("hydra:member", Json.arr [Json.obj [("id", Json.str "b")]])]))
          (Except.ok { ok := true, status := 200, bodyText := "payload" }) stPoll).messages
        = membersOrEmpty ((safeJson (fun _ => some (Json.obj [("hydra:member", Json.arr [Json.obj [("id", Json.str "b")]])])) "payload").jsGetField "hydra:member"))
    ∧ (("payload" = "" ∨ (fun (_ : String) => some (Json.obj [("hydra:member", Json.arr [Json.obj [("id", Json.str "b")]])])) "payload" = none) →
        (fetchMessages (fun _ => some (Json.obj [("hydra:member", Json.arr [Json.obj [("id", Json.str "b")]])]))
          (Except.ok { ok := true, status := 200, bodyText := "payload" }) stPoll).messages = [])
    ∧ (∀ j, (fun (_ : String) => some (Json.obj [("hydra:member", Json.arr [Json.obj [("id", Json.str "b")]])])) "payload" = some j → j ≠ Json.null →
        j.jsGetField "hydra:member" = none →
        (fetchMessages (fun _ => some (Json.obj [("hydra:member", Json.arr [Json.obj [("id", Json.str "b")]])]))
          (Except.ok { ok := true, status := 200, bodyText := "payload" }) stPoll).messages = [])
    ∧ (safeJson (fun _ => some (Json.obj [("hydra:member", Json.arr [Json.obj [("id", Json.str "b")]])])) "payload" = Json.null →
        (fetchMessages (fun _ => some (Json.obj [("hydra:member", Json.arr [Json.obj [("id", Json.str "b")]])]))
          (Except.ok { ok := true, status := 200, bodyText := "payload" }) stPoll).messages = stPoll.messages) :=
  fetchMessages_replaces_amended
    (fun _ => some (Json.obj [("hydra:member", Json.arr [Json.obj [("id", Json.str "b")]])]))
    { ok := true, status := 200, bodyText := "payload" } stPoll
    { id := none, address := "u@test.dev", token := Json.str "t" } rfl rfl
